import Mathlib

/-
Shallow embedding of src/woolpert_example.py.

The script drives an external imagery API: it submits one export task per
collection item (`export_im_collection`), polls the tasks with a capped,
jittered exponential backoff (`TasksManager.poll`), and resolves each
completed task's output path (`TasksManager.get_export_destination`).

External effects are made explicit:
  * each iteration of the polling loop observes the external tasks through a
    `PollStep` (a consistent snapshot of every task, or a transient
    ConnectionError/TimeoutError raised inside the loop body, carrying the
    jitter that `random.uniform(0, 1)` returns on that retry);
  * `time.sleep` calls are recorded in `PollResult.sleeps` and `logger`
    calls in `PollResult.log`;
  * Python dict lookups on the externally-shaped `task.config` are modelled
    with `Option` fields; a lookup of a missing key raises
    `DestError.keyError`, exactly as a Python subscript does.
-/

/- Task state constants of `class TaskStatus` (lines 12-16). -/

namespace TaskStatus

def COMPLETED : String := "COMPLETED"

def FAILED : String := "FAILED"

def CANCEL_REQUESTED : String := "CANCEL_REQUESTED"

def CANCELLED : String := "CANCELLED"

end TaskStatus

/- One task as the polling loop observes it: `task.id`, `task.active()` and
the value the code compares with the `TaskStatus` constants (lines 26-49
compare `task.status()` with those string constants). -/

structure TaskObs where
  id : String
  active : Bool
  status : String
  deriving Repr, DecidableEq

/- One iteration of the `while any(task.active() ...)` loop: either the body
runs on a snapshot of the tasks, or a ConnectionError/TimeoutError is raised
inside the `try` block (line 39), with the jitter drawn on that retry and the
exception's message. -/

inductive PollStep where
  | ok (snaps : List TaskObs)
  | err (snaps : List TaskObs) (jitter : ℚ) (msg : String)
  deriving Repr, DecidableEq

def PollStep.snaps : PollStep → List TaskObs
  | PollStep.ok s => s
  | PollStep.err s _ _ => s

/- The calls the loop makes on `self.logger` (lines 35, 40, 44, 47). -/

inductive LogMsg where
  | taskFailedError (taskId : String)
  | pollingInterruptedWarning (msg : String)
  | retryingInfo (sleepTime : ℚ)
  | maxRetriesError
  deriving Repr, DecidableEq

/- What a run of `TasksManager.poll` produces: its return value (`none` when
the given trace ends before the loop does), every `time.sleep` duration in
order, and every logger call in order. -/

structure PollResult where
  ret : Option Bool
  sleeps : List ℚ
  log : List LogMsg
  deriving Repr, DecidableEq

/- `TasksManager.poll` (lines 24-49) over a trace of loop iterations.
`retries` is the consecutive-retry counter (line 25 starts it at 0; line 38
resets it; line 42 increments it).  On a successful iteration the body
returns False at the first task whose `status()` equals `TaskStatus.FAILED`
(lines 33-36), otherwise sleeps 10 seconds (line 37).  On a transient error
with `retries < max_retries` it sleeps `backoff_factor ** retries` (after the
increment) plus the jitter (line 43); once the budget is exhausted it logs an
error and returns False (lines 46-48).  When no task is active the loop exits
and line 49 returns whether every task's `status()` equals
`TaskStatus.COMPLETED`. -/

def pollGo (max_retries backoff_factor : ℕ) (retries : ℕ) :
    List PollStep → PollResult
  | [] => ⟨none, [], []⟩
  | st :: rest =>
    if st.snaps.any (fun t => t.active) then
      match st with
      | PollStep.ok s =>
        match s.find? (fun t => t.status == TaskStatus.FAILED) with
        | some t => ⟨some false, [], [LogMsg.taskFailedError t.id]⟩
        | none =>
          let r := pollGo max_retries backoff_factor 0 rest
          ⟨r.ret, 10 :: r.sleeps, r.log⟩
      | PollStep.err _ jitter msg =>
        if retries < max_retries then
          let sleep_time := (backoff_factor : ℚ) ^ (retries + 1) + jitter
          let r := pollGo max_retries backoff_factor (retries + 1) rest
          ⟨r.ret, sleep_time :: r.sleeps,
            LogMsg.pollingInterruptedWarning msg ::
              LogMsg.retryingInfo sleep_time :: r.log⟩
        else
          ⟨some false, [],
            [LogMsg.pollingInterruptedWarning msg, LogMsg.maxRetriesError]⟩
    else
      ⟨some (st.snaps.all (fun t => t.status == TaskStatus.COMPLETED)), [], []⟩

/- The nested shape of `task.config`, an externally produced Python dict.
Every key the code subscripts may be absent, hence the `Option` fields. -/

structure EarthEngineDestination where
  name : Option String
  deriving Repr, DecidableEq

structure AssetExportOptions where
  earthEngineDestination : Option EarthEngineDestination
  deriving Repr, DecidableEq

structure CloudStorageDestination where
  filenamePrefix : Option String
  deriving Repr, DecidableEq

structure FileExportOptions where
  cloudStorageDestination : Option CloudStorageDestination
  fileFormat : Option String
  deriving Repr, DecidableEq

structure TaskConfig where
  assetExportOptions : Option AssetExportOptions
  fileExportOptions : Option FileExportOptions
  deriving Repr, DecidableEq

/- The exceptions `get_export_destination` can raise: the ValueError it
builds at line 70, or the KeyError a subscript on `task.config` raises when
the key is missing. -/

inductive DestError where
  | valueError (config : TaskConfig)
  | keyError (key : String)
  deriving Repr, DecidableEq

def DestError.isValueError : DestError → Bool
  | DestError.valueError _ => true
  | DestError.keyError _ => false

/- `file_format.lower().replace("_", "")` (line 60): lowercase every
character and drop every underscore, computed on the character list (the
format names this code meets are ASCII, where Python's `str.lower` agrees
with `Char.toLower`, and replacing `"_"` by the empty string is dropping
the underscores). -/

def normalizeFormat (fmt : String) : String :=
  String.mk ((fmt.data.map Char.toLower).filter (fun c => c != '_'))

/- The body of the `for task in self.tasks` loop of `get_export_destination`
(lines 55-74) for one task: the path it appends, or the exception it raises.
Lookups happen in the source's order: `assetExportOptions` membership first;
otherwise `config["fileExportOptions"]` is subscripted unconditionally
(line 59) before the `cloudStorageDestination` membership test, then
`fileFormat` (line 60) and `filenamePrefix` (line 66) are subscripted. -/

def exportDestination (config : TaskConfig) : Except DestError String :=
  match config.assetExportOptions with
  | some assetOpts =>
    match assetOpts.earthEngineDestination with
    | none => Except.error (DestError.keyError "earthEngineDestination")
    | some dest =>
      match dest.name with
      | none => Except.error (DestError.keyError "name")
      | some n => Except.ok n
  | none =>
    match config.fileExportOptions with
    | none => Except.error (DestError.keyError "fileExportOptions")
    | some fileOpts =>
      match fileOpts.cloudStorageDestination with
      | some csd =>
        match fileOpts.fileFormat with
        | none => Except.error (DestError.keyError "fileFormat")
        | some fmt =>
          let file_format := normalizeFormat fmt
          let file_format :=
            if file_format == "geotiff" then "tif"
            else if file_format == "tfrecordimage" then "tfrecord"
            else file_format
          match csd.filenamePrefix with
          | none => Except.error (DestError.keyError "filenamePrefix")
          | some p => Except.ok (p ++ "." ++ file_format)
      | none => Except.error (DestError.valueError config)

/- The loop of `get_export_destination` threading `self.paths`: on each
appended path it continues; at the first exception it stops, the ValueError
being logged through `logger.error` when a logger is present (lines 72-73),
a KeyError propagating unlogged.  Returns the final paths, the errors logged
during the call, and the exception raised (if any). -/

def getExportGo (hasLogger : Bool) (paths : List String) (log : List DestError) :
    List TaskConfig → List String × List DestError × Option DestError
  | [] => (paths, log, none)
  | config :: rest =>
    match exportDestination config with
    | Except.ok p => getExportGo hasLogger (paths ++ [p]) log rest
    | Except.error e =>
      match e with
      | DestError.valueError _ =>
        (paths, (if hasLogger then log ++ [e] else log), some e)
      | DestError.keyError _ => (paths, log, some e)

/- `class TasksManager` (lines 18-22): a list of task handles, a logger
(modelled by its presence) and the accumulated output paths. -/

structure TasksManager (τ : Type) where
  tasks : List τ
  hasLogger : Bool
  paths : List String
  deriving Repr, DecidableEq

/- `__init__` (lines 19-22): stores the tasks and logger, starts `paths`
empty. -/

def TasksManager.new {τ : Type} (tasks : List τ) (logger : Bool) :
    TasksManager τ :=
  ⟨tasks, logger, []⟩

/- `poll` as a method: it reads the external tasks through the trace and
writes no attribute of `self` (its only assignments are to the locals
`retries`, `active_tasks`, `running_exports` and `sleep_time`). -/

def TasksManager.poll {τ : Type} (self : TasksManager τ)
    (max_retries backoff_factor : ℕ) (trace : List PollStep) :
    PollResult × TasksManager τ :=
  (pollGo max_retries backoff_factor 0 trace, self)

/- `get_export_destination` (lines 51-74).  A passed `tasks` argument
replaces `self.tasks` only when truthy (line 52: an empty list is falsy).
Returns the updated manager, the errors logged, and the exception raised. -/

def TasksManager.get_export_destination (self : TasksManager TaskConfig)
    (tasks : Option (List TaskConfig)) :
    TasksManager TaskConfig × List DestError × Option DestError :=
  let self1 :=
    match tasks with
    | some ts => if ts.isEmpty then self else ⟨ts, self.hasLogger, self.paths⟩
    | none => self
  let r := getExportGo self1.hasLogger self1.paths [] self1.tasks
  (⟨self1.tasks, self1.hasLogger, r.1⟩, r.2.1, r.2.2)

/- The export-options dict passed to `export_im_collection`: the
`fileNamePrefix` entry (the only key the function touches) and the rest of
the mapping, which it never reads or writes. -/

structure ExportOptions where
  fileNamePrefix : Option String
  others : List (String × String)
  deriving Repr, DecidableEq

/- `dict.copy()`: a fresh object holding the same entries, so writes to the
copy leave the original dict unchanged. -/

def ExportOptions.copy (o : ExportOptions) : ExportOptions := o

/- An `ee.batch` export task as `export_im_collection` creates it: the
image (identified by the collection item `idx` that
`filterMetadata(property, "equals", idx).first()` selects), the description,
the options it was submitted with, the export kind, and whether `start()`
has been called. -/

structure ExportTask where
  image : String
  description : String
  options : ExportOptions
  kind : String
  started : Bool
  deriving Repr, DecidableEq

def Export.image.toCloudStorage (image : String) (description : String)
    (options : ExportOptions) : ExportTask :=
  ⟨image, description, options, "cloudStorage", false⟩

def ExportTask.start (t : ExportTask) : ExportTask :=
  ⟨t.image, t.description, t.options, t.kind, true⟩

/- Lines 83-89: the per-item options.  `_export_options` is a copy of the
caller's dict; `fileNamePrefix` is set to `idx` when absent, else to
`"<old>/<idx>"`. -/

def itemExportOptions (export_options : ExportOptions) (idx : String) :
    ExportOptions :=
  let eo := export_options.copy
  match eo.fileNamePrefix with
  | none => ⟨some idx, eo.others⟩
  | some p => ⟨some (p ++ "/" ++ idx), eo.others⟩

/- The `for idx in im_collection.aggregate_array(property).getInfo()` loop
(lines 81-95), threading the caller's `export_options` dict: each iteration
writes only its own copy, so the dict passed on (and finally visible to the
caller, the second component) is the one the caller supplied. -/

def exportLoop (export_options : ExportOptions) (description : String) :
    List String → List ExportTask × ExportOptions
  | [] => ([], export_options)
  | idx :: restIdx =>
    let task := ExportTask.start
      (Export.image.toCloudStorage idx description
        (itemExportOptions export_options idx))
    let r := exportLoop export_options description restIdx
    (task :: r.1, r.2)

/- `export_im_collection` (lines 77-96) over the aggregated property array
`idxs`: submits one started cloud-storage export task per item and wraps
them in a fresh `TasksManager`.  The second component is the caller's
`export_options` dict as seen after the call. -/

def export_im_collection (idxs : List String) (description : String)
    (export_options : ExportOptions) (logger : Bool) :
    TasksManager ExportTask × ExportOptions :=
  let r := exportLoop export_options description idxs
  (TasksManager.new r.1 logger, r.2)

/- Concrete sample data used by the witness theorems. -/

def obsRunning : TaskObs := ⟨"t1", true, "RUNNING"⟩

def obsDone : TaskObs := ⟨"t1", false, TaskStatus.COMPLETED⟩

def cfgAsset : TaskConfig := ⟨some ⟨some ⟨some "projects/p/assets/a"⟩⟩, none⟩

def cfgGeo : TaskConfig := ⟨none, some ⟨some ⟨some "pre"⟩, some "GeoTIFF"⟩⟩

def cfgTfr : TaskConfig :=
  ⟨none, some ⟨some ⟨some "pre"⟩, some "TFRecord_Image"⟩⟩

def cfgDrive : TaskConfig := ⟨none, some ⟨none, some "GeoTIFF"⟩⟩

def cfgEmpty : TaskConfig := ⟨none, none⟩

def mgrMixed : TasksManager TaskConfig :=
  ⟨[cfgAsset, cfgDrive, cfgGeo], true, ["old"]⟩

def mgrAsset : TasksManager TaskConfig := ⟨[cfgAsset], true, []⟩

/- Helper lemmas (shared; none of them is a claim's theorem). -/

lemma pollGo_exit (max_retries backoff_factor retries : ℕ) (st : PollStep)
    (rest : List PollStep)
    (h : st.snaps.any (fun t => t.active) = false) :
    pollGo max_retries backoff_factor retries (st :: rest) =
      ⟨some (st.snaps.all (fun t => t.status == TaskStatus.COMPLETED)), [], []⟩ := by
  cases st with
  | ok s =>
    rw [pollGo]
    simp only [PollStep.snaps] at h ⊢
    rw [h]
    simp
  | err s jitter msg =>
    rw [pollGo]
    simp only [PollStep.snaps] at h ⊢
    rw [h]
    simp

lemma pollGo_ret_true (max_retries backoff_factor : ℕ) :
    ∀ (retries : ℕ) (trace : List PollStep),
      (pollGo max_retries backoff_factor retries trace).ret = some true →
      ∃ st ∈ trace, st.snaps.all (fun t => !t.active) = true ∧
        st.snaps.all (fun t => t.status == TaskStatus.COMPLETED) = true := by
  intro retries trace
  induction trace generalizing retries with
  | nil => intro h; simp [pollGo] at h
  | cons st rest ih =>
    intro h
    cases hac : st.snaps.any (fun t => t.active) with
    | false =>
      rw [pollGo_exit _ _ _ _ _ hac] at h
      have hall : st.snaps.all (fun t => !t.active) = true := by
        rw [List.all_eq_true]
        intro t ht
        have := (List.any_eq_false.mp hac) t ht
        simpa using this
      refine ⟨st, List.mem_cons_self _ _, hall, ?_⟩
      simpa using h
    | true =>
      cases st with
      | ok s =>
        have hs : s.any (fun t => t.active) = true := hac
        cases hf : s.find? (fun t => t.status == TaskStatus.FAILED) with
        | some t =>
          rw [pollGo] at h
          simp [PollStep.snaps, hs, hf] at h
        | none =>
          rw [pollGo] at h
          simp [PollStep.snaps, hs, hf] at h
          obtain ⟨st2, hmem, hx⟩ := ih 0 h
          exact ⟨st2, List.mem_cons_of_mem _ hmem, hx⟩
      | err s jitter msg =>
        have hs : s.any (fun t => t.active) = true := hac
        by_cases hr : retries < max_retries
        · rw [pollGo] at h
          simp [PollStep.snaps, hs, hr] at h
          obtain ⟨st2, hmem, hx⟩ := ih (retries + 1) h
          exact ⟨st2, List.mem_cons_of_mem _ hmem, hx⟩
        · rw [pollGo] at h
          simp [PollStep.snaps, hs, hr] at h

lemma getExportGo_paths_exists (ts : List TaskConfig) :
    ∀ (lg : Bool) (p : List String) (log : List DestError),
      ∃ appended, (getExportGo lg p log ts).1 = p ++ appended := by
  induction ts with
  | nil => intro lg p log; exact ⟨[], by simp [getExportGo]⟩
  | cons c rest ih =>
    intro lg p log
    cases h : exportDestination c with
    | ok s =>
      obtain ⟨appended, ha⟩ := ih lg (p ++ [s]) log
      exact ⟨s :: appended, by simp [getExportGo, h, ha]⟩
    | error e =>
      cases e with
      | valueError cfg => exact ⟨[], by simp [getExportGo, h]⟩
      | keyError k => exact ⟨[], by simp [getExportGo, h]⟩

lemma getExportGo_all_ok (ts : List TaskConfig) :
    ∀ (vals : List String) (lg : Bool) (p : List String) (log : List DestError),
      ts.map exportDestination = vals.map Except.ok →
      getExportGo lg p log ts = (p ++ vals, log, none) := by
  induction ts with
  | nil =>
    intro vals lg p log h
    have : vals = [] := by
      cases vals with
      | nil => rfl
      | cons v vs => simp at h
    subst this
    simp [getExportGo]
  | cons c rest ih =>
    intro vals lg p log h
    cases vals with
    | nil => simp at h
    | cons v vs =>
      simp only [List.map_cons, List.cons.injEq] at h
      have hred : getExportGo lg p log (c :: rest) =
          getExportGo lg (p ++ [v]) log rest := by
        rw [getExportGo, h.1]
      rw [hred, ih vs lg (p ++ [v]) log h.2]
      simp

lemma getExportGo_stops_at_error (pre : List TaskConfig) :
    ∀ (vals : List String) (bad : TaskConfig) (rest : List TaskConfig)
      (lg : Bool) (p : List String) (log : List DestError) (e : DestError),
      pre.map exportDestination = vals.map Except.ok →
      exportDestination bad = Except.error e →
      (getExportGo lg p log (pre ++ bad :: rest)).1 = p ++ vals ∧
      (getExportGo lg p log (pre ++ bad :: rest)).2.2 = some e := by
  induction pre with
  | nil =>
    intro vals bad rest lg p log e hpre hbad
    have hv : vals = [] := by
      cases vals with
      | nil => rfl
      | cons v vs => simp at hpre
    subst hv
    rw [List.nil_append, getExportGo, hbad]
    cases e with
    | valueError cfg => simp
    | keyError k => simp
  | cons c pre2 ih =>
    intro vals bad rest lg p log e hpre hbad
    cases vals with
    | nil => simp at hpre
    | cons v vs =>
      simp only [List.map_cons, List.cons.injEq] at hpre
      have hred : getExportGo lg p log ((c :: pre2) ++ bad :: rest) =
          getExportGo lg (p ++ [v]) log (pre2 ++ bad :: rest) := by
        rw [List.cons_append, getExportGo, hpre.1]
      rw [hred]
      have hrec := ih vs bad rest lg (p ++ [v]) log e hpre.2 hbad
      refine ⟨?_, hrec.2⟩
      rw [hrec.1]
      simp

lemma exportLoop_tasks (description : String) (export_options : ExportOptions) :
    ∀ idxs : List String,
      (exportLoop export_options description idxs).1 =
        idxs.map (fun idx => ExportTask.start
          (Export.image.toCloudStorage idx description
            (itemExportOptions export_options idx))) := by
  intro idxs
  induction idxs with
  | nil => simp [exportLoop]
  | cons idx rest ih => simp [exportLoop, ih]

lemma exportLoop_snd (description : String) (export_options : ExportOptions) :
    ∀ idxs : List String,
      (exportLoop export_options description idxs).2 = export_options := by
  intro idxs
  induction idxs with
  | nil => simp [exportLoop]
  | cons idx rest ih => simp [exportLoop, ih]

lemma pollGo_err_exhausted (max_retries backoff_factor retries : ℕ)
    (snaps : List TaskObs) (jitter : ℚ) (msg : String) (rest : List PollStep)
    (hactive : snaps.any (fun t => t.active) = true)
    (hr : ¬ retries < max_retries) :
    pollGo max_retries backoff_factor retries
        (PollStep.err snaps jitter msg :: rest) =
      ⟨some false, [],
        [LogMsg.pollingInterruptedWarning msg, LogMsg.maxRetriesError]⟩ := by
  rw [pollGo]
  simp only [PollStep.snaps]
  rw [hactive]
  simp [hr]

lemma pollGo_err_retry (max_retries backoff_factor retries : ℕ)
    (snaps : List TaskObs) (jitter : ℚ) (msg : String) (rest : List PollStep)
    (hactive : snaps.any (fun t => t.active) = true)
    (hr : retries < max_retries) :
    pollGo max_retries backoff_factor retries
        (PollStep.err snaps jitter msg :: rest) =
      ⟨(pollGo max_retries backoff_factor (retries + 1) rest).ret,
        ((backoff_factor : ℚ) ^ (retries + 1) + jitter) ::
          (pollGo max_retries backoff_factor (retries + 1) rest).sleeps,
        LogMsg.pollingInterruptedWarning msg ::
          LogMsg.retryingInfo ((backoff_factor : ℚ) ^ (retries + 1) + jitter) ::
            (pollGo max_retries backoff_factor (retries + 1) rest).log⟩ := by
  rw [pollGo]
  simp only [PollStep.snaps]
  rw [hactive]
  simp [hr]

lemma pollGo_replicate_err (max_retries backoff_factor : ℕ)
    (snaps : List TaskObs) (jitter : ℚ) (msg : String) (rest : List PollStep)
    (hactive : snaps.any (fun t => t.active) = true) :
    ∀ (n retries : ℕ), retries + n = max_retries →
      (pollGo max_retries backoff_factor retries
        (List.replicate (n + 1) (PollStep.err snaps jitter msg) ++ rest)).ret =
        some false := by
  intro n
  induction n with
  | zero =>
    intro retries hsum
    simp only [Nat.add_zero] at hsum
    subst hsum
    rw [List.replicate_one, List.cons_append, List.nil_append]
    rw [pollGo_err_exhausted _ _ _ _ _ _ _ hactive (lt_irrefl _)]
  | succ k ih =>
    intro retries hsum
    have hlt : retries < max_retries := by omega
    rw [List.replicate_succ, List.cons_append]
    rw [pollGo_err_retry _ _ _ _ _ _ _ hactive hlt]
    exact ih (retries + 1) (by omega)

/-- C1: `TasksManager.poll` returns True exactly when every task reports the
"COMPLETED" state: when the loop exits because no task is still active
(first conjunct gives the exit step's full result, second the iff over the
final statuses), and whenever the run returns True it did exit at a step
where no task was active and every status equalled
`TaskStatus.COMPLETED` (third conjunct). -/
theorem poll_returns_true_iff_all_completed (max_retries backoff_factor retries : ℕ)
    (st : PollStep) (rest : List PollStep)
    (h : st.snaps.all (fun t => !t.active) = true) :
    pollGo max_retries backoff_factor retries (st :: rest) =
      ⟨some (st.snaps.all (fun t => t.status == TaskStatus.COMPLETED)), [], []⟩ ∧
    ((pollGo max_retries backoff_factor retries (st :: rest)).ret = some true ↔
      ∀ t ∈ st.snaps, t.status = TaskStatus.COMPLETED) ∧
    (∀ (r0 : ℕ) (trace : List PollStep),
      (pollGo max_retries backoff_factor r0 trace).ret = some true →
      ∃ stExit ∈ trace, stExit.snaps.all (fun t => !t.active) = true ∧
        stExit.snaps.all (fun t => t.status == TaskStatus.COMPLETED) = true) := by
  have hac : st.snaps.any (fun t => t.active) = false := by
    rw [List.any_eq_false]
    intro t ht
    have := (List.all_eq_true.mp h) t ht
    simpa using this
  have hexit := pollGo_exit max_retries backoff_factor retries st rest hac
  refine ⟨hexit, ?_, pollGo_ret_true max_retries backoff_factor⟩
  rw [hexit]
  simp [List.all_eq_true]

theorem poll_returns_true_iff_all_completed_witness :
    (pollGo 5 2 0 [PollStep.ok [obsDone]]).ret = some true := by
  have h := poll_returns_true_iff_all_completed 5 2 0 (PollStep.ok [obsDone]) []
    (by decide)
  exact h.2.1.mpr (by decide)

/-- C8: with an empty task list the polling loop's condition
`any(task.active() for task in self.tasks)` is False at once: `poll` returns
True immediately, sleeps never, and logs nothing, for every `max_retries`
and `backoff_factor`. -/
theorem poll_empty_tasks_returns_true {τ : Type} (m : TasksManager τ)
    (max_retries backoff_factor : ℕ) (st : PollStep) (rest : List PollStep)
    (hm : m.tasks = []) (hlen : st.snaps.length = m.tasks.length) :
    m.poll max_retries backoff_factor (st :: rest) = (⟨some true, [], []⟩, m) := by
  have hst : st.snaps = [] := by
    rw [hm] at hlen
    exact List.length_eq_zero.mp hlen
  rw [TasksManager.poll, pollGo_exit]
  · rw [hst]; simp
  · rw [hst]; simp

theorem poll_empty_tasks_returns_true_witness :
    (TasksManager.new ([] : List TaskConfig) true).poll 5 2 [PollStep.ok []] =
      (⟨some true, [], []⟩, TasksManager.new ([] : List TaskConfig) true) := by
  exact poll_empty_tasks_returns_true (TasksManager.new ([] : List TaskConfig) true)
    5 2 (PollStep.ok []) [] rfl rfl

/-- C3: exhausted retry budget surfaces as a boolean failure.  First
conjunct: a transient error arriving while the consecutive-retry counter
already equals `max_retries` makes `poll` log
"Max retries reached. Aborting polling." and return False with no further
sleep.  Second conjunct: `max_retries + 1` consecutive transient errors with
no intervening successful iteration make `poll` (which starts the counter at
0) return False. -/
theorem poll_returns_false_when_retries_exhausted :
    (∀ (max_retries backoff_factor : ℕ) (snaps : List TaskObs) (jitter : ℚ)
        (msg : String) (rest : List PollStep),
      snaps.any (fun t => t.active) = true →
      pollGo max_retries backoff_factor max_retries
          (PollStep.err snaps jitter msg :: rest) =
        ⟨some false, [],
          [LogMsg.pollingInterruptedWarning msg, LogMsg.maxRetriesError]⟩) ∧
    (∀ (τ : Type) (m : TasksManager τ) (max_retries backoff_factor : ℕ)
        (snaps : List TaskObs) (jitter : ℚ) (msg : String)
        (rest : List PollStep),
      snaps.any (fun t => t.active) = true →
      ((m.poll max_retries backoff_factor
          (List.replicate (max_retries + 1) (PollStep.err snaps jitter msg) ++
            rest)).1).ret = some false) := by
  constructor
  · intro max_retries backoff_factor snaps jitter msg rest hactive
    exact pollGo_err_exhausted _ _ _ _ _ _ _ hactive (lt_irrefl _)
  · intro τ m max_retries backoff_factor snaps jitter msg rest hactive
    rw [TasksManager.poll]
    exact pollGo_replicate_err max_retries backoff_factor snaps jitter msg rest
      hactive max_retries 0 (by omega)

theorem poll_returns_false_when_retries_exhausted_witness :
    ((mgrAsset.poll 1 2
        (List.replicate 2 (PollStep.err [obsRunning] 0 "boom"))).1).ret =
      some false := by
  have h := poll_returns_false_when_retries_exhausted.2 TaskConfig
    mgrAsset 1 2 [obsRunning] 0 "boom" [] (by decide)
  simpa using h

/-- C4: backoff shape of the polling loop.  First conjunct: the n-th
consecutive transient error (1 ≤ n ≤ max_retries, counter at n - 1) sleeps
exactly `backoff_factor ^ n + jitter` and continues with the counter at n.
Second conjunct: with the jitter in [0, 1), that sleep lies in
[backoff_factor ^ n, backoff_factor ^ n + 1).  Third conjunct: with the
default `backoff_factor = 2` the deterministic part doubles on each
successive retry.  Fourth conjunct: a successful polling iteration (no task
failed) resets the consecutive-retry counter to 0. -/
theorem poll_backoff_formula_and_reset :
    (∀ (max_retries backoff_factor n : ℕ) (jitter : ℚ) (msg : String)
        (snaps : List TaskObs) (rest : List PollStep),
      1 ≤ n → n ≤ max_retries → snaps.any (fun t => t.active) = true →
      pollGo max_retries backoff_factor (n - 1)
          (PollStep.err snaps jitter msg :: rest) =
        ⟨(pollGo max_retries backoff_factor n rest).ret,
          ((backoff_factor : ℚ) ^ n + jitter) ::
            (pollGo max_retries backoff_factor n rest).sleeps,
          LogMsg.pollingInterruptedWarning msg ::
            LogMsg.retryingInfo ((backoff_factor : ℚ) ^ n + jitter) ::
              (pollGo max_retries backoff_factor n rest).log⟩) ∧
    (∀ (backoff_factor n : ℕ) (jitter : ℚ), 0 ≤ jitter → jitter < 1 →
      (backoff_factor : ℚ) ^ n ≤ (backoff_factor : ℚ) ^ n + jitter ∧
      (backoff_factor : ℚ) ^ n + jitter < (backoff_factor : ℚ) ^ n + 1) ∧
    (∀ n : ℕ, ((2 : ℕ) : ℚ) ^ (n + 1) = 2 * ((2 : ℕ) : ℚ) ^ n) ∧
    (∀ (max_retries backoff_factor retries : ℕ) (snaps : List TaskObs)
        (rest : List PollStep),
      snaps.any (fun t => t.active) = true →
      snaps.find? (fun t => t.status == TaskStatus.FAILED) = none →
      pollGo max_retries backoff_factor retries (PollStep.ok snaps :: rest) =
        ⟨(pollGo max_retries backoff_factor 0 rest).ret,
          10 :: (pollGo max_retries backoff_factor 0 rest).sleeps,
          (pollGo max_retries backoff_factor 0 rest).log⟩) := by
  refine ⟨?_, ?_, ?_, ?_⟩
  · intro max_retries backoff_factor n jitter msg snaps rest h1 h2 hactive
    obtain ⟨k, rfl⟩ : ∃ k, n = k + 1 := ⟨n - 1, by omega⟩
    have hlt : k < max_retries := by omega
    have := pollGo_err_retry max_retries backoff_factor k snaps jitter msg rest
      hactive hlt
    simpa using this
  · intro backoff_factor n jitter h0 h1
    constructor <;> linarith
  · intro n
    push_cast
    ring
  · intro max_retries backoff_factor retries snaps rest hactive hnone
    rw [pollGo]
    simp only [PollStep.snaps]
    rw [hactive, hnone]
    simp

theorem poll_backoff_formula_and_reset_witness :
    pollGo 5 2 0 [PollStep.err [obsRunning] (1 / 2) "boom"] =
      ⟨none, [(5 : ℚ) / 2],
        [LogMsg.pollingInterruptedWarning "boom",
          LogMsg.retryingInfo ((5 : ℚ) / 2)]⟩ ∧
    pollGo 5 2 3 [PollStep.ok [obsRunning]] =
      ⟨none, [10], []⟩ := by
  constructor
  · have h := poll_backoff_formula_and_reset.1 5 2 1 (1 / 2) "boom" [obsRunning]
      [] (by decide) (by decide) (by decide)
    have h52 : ((2 : ℕ) : ℚ) ^ 1 + 1 / 2 = (5 : ℚ) / 2 := by norm_num
    rw [h52] at h
    simpa [pollGo] using h
  · have h := poll_backoff_formula_and_reset.2.2.2 5 2 3 [obsRunning] []
      (by decide) (by decide)
    simpa [pollGo] using h

lemma get_export_destination_none (m : TasksManager TaskConfig) :
    m.get_export_destination none =
      (⟨m.tasks, m.hasLogger, (getExportGo m.hasLogger m.paths [] m.tasks).1⟩,
        (getExportGo m.hasLogger m.paths [] m.tasks).2.1,
        (getExportGo m.hasLogger m.paths [] m.tasks).2.2) := rfl

/-- C2: export destination resolution.  A config carrying
"assetExportOptions" resolves to the earthEngineDestination name (first
conjunct); otherwise, with "cloudStorageDestination" under its
fileExportOptions, it resolves to "<filenamePrefix>.tif" when the
lowercased, underscore-stripped fileFormat is "geotiff" (second) and to
"<filenamePrefix>.tfrecord" when it is "tfrecordimage" (third); the resolved
string is exactly what the loop appends to `self.paths` for that task
(fourth). -/
theorem get_export_destination_path_resolution :
    (∀ (config : TaskConfig) (assetOpts : AssetExportOptions)
        (dest : EarthEngineDestination) (nm : String),
      config.assetExportOptions = some assetOpts →
      assetOpts.earthEngineDestination = some dest →
      dest.name = some nm →
      exportDestination config = Except.ok nm) ∧
    (∀ (config : TaskConfig) (fileOpts : FileExportOptions)
        (csd : CloudStorageDestination) (p fmt : String),
      config.assetExportOptions = none →
      config.fileExportOptions = some fileOpts →
      fileOpts.cloudStorageDestination = some csd →
      fileOpts.fileFormat = some fmt →
      csd.filenamePrefix = some p →
      normalizeFormat fmt = "geotiff" →
      exportDestination config = Except.ok (p ++ ".tif")) ∧
    (∀ (config : TaskConfig) (fileOpts : FileExportOptions)
        (csd : CloudStorageDestination) (p fmt : String),
      config.assetExportOptions = none →
      config.fileExportOptions = some fileOpts →
      fileOpts.cloudStorageDestination = some csd →
      fileOpts.fileFormat = some fmt →
      csd.filenamePrefix = some p →
      normalizeFormat fmt = "tfrecordimage" →
      exportDestination config = Except.ok (p ++ ".tfrecord")) ∧
    (∀ (hasLogger : Bool) (paths : List String) (log : List DestError)
        (config : TaskConfig) (rest : List TaskConfig) (p : String),
      exportDestination config = Except.ok p →
      getExportGo hasLogger paths log (config :: rest) =
        getExportGo hasLogger (paths ++ [p]) log rest) := by
  refine ⟨?_, ?_, ?_, ?_⟩
  · intro config assetOpts dest nm h1 h2 h3
    simp [exportDestination, h1, h2, h3]
  · intro config fileOpts csd p fmt h1 h2 h3 h4 h5 hfmt
    simp only [exportDestination, h1, h2, h3, h4, h5, hfmt]
    norm_num
    rw [String.append_assoc,
      show (("." : String) ++ "tif") = ".tif" from rfl]
  · intro config fileOpts csd p fmt h1 h2 h3 h4 h5 hfmt
    simp only [exportDestination, h1, h2, h3, h4, h5, hfmt]
    norm_num
    rw [String.append_assoc, if_neg (by decide),
      show (("." : String) ++ "tfrecord") = ".tfrecord" from rfl]
  · intro hasLogger paths log config rest p hok
    rw [getExportGo, hok]

theorem get_export_destination_path_resolution_witness :
    exportDestination cfgAsset = Except.ok "projects/p/assets/a" ∧
    exportDestination cfgGeo = Except.ok "pre.tif" ∧
    exportDestination cfgTfr = Except.ok "pre.tfrecord" ∧
    getExportGo true [] [] [cfgGeo] = (["pre.tif"], [], none) := by
  refine ⟨?_, ?_, ?_, ?_⟩
  · exact get_export_destination_path_resolution.1 cfgAsset _ _ _ rfl rfl rfl
  · exact get_export_destination_path_resolution.2.1 cfgGeo _ _ "pre" _
      rfl rfl rfl rfl rfl (by decide)
  · exact get_export_destination_path_resolution.2.2.1 cfgTfr _ _ "pre" _
      rfl rfl rfl rfl rfl (by decide)
  · rw [get_export_destination_path_resolution.2.2.2 true [] [] cfgGeo []
      "pre.tif" (by rfl)]
    decide

/-- C5 counterexample: at `cfgEmpty`, a config holding neither
"assetExportOptions" nor "fileExportOptions", neither branch applies, yet
the call raises the KeyError of the unconditional
`task.config["fileExportOptions"]` subscript at line 59 rather than a
ValueError, and logs nothing although a logger is present. -/
theorem get_export_destination_unrecognized_keyError :
    (getExportGo true [] [] [cfgEmpty]).2.2 =
      some (DestError.keyError "fileExportOptions") ∧
    ((getExportGo true [] [] [cfgEmpty]).2.2.map DestError.isValueError) =
      some false ∧
    (getExportGo true [] [] [cfgEmpty]).2.1 = [] ∧
    (getExportGo true [] [] [cfgEmpty]).1 = [] := by
  decide

/-- C5 (amended): for every task whose config lacks "assetExportOptions" but
does hold "fileExportOptions" without a "cloudStorageDestination" entry,
`get_export_destination` raises a ValueError immediately for that task,
logging it via `logger.error` exactly when a logger is present and appending
no path for it (a config lacking "fileExportOptions" altogether instead
raises an unlogged KeyError, see the counterexample). -/
theorem get_export_destination_unrecognized_raises_valueError
    (hasLogger : Bool) (paths : List String) (log : List DestError)
    (config : TaskConfig) (rest : List TaskConfig)
    (fileOpts : FileExportOptions)
    (h1 : config.assetExportOptions = none)
    (h2 : config.fileExportOptions = some fileOpts)
    (h3 : fileOpts.cloudStorageDestination = none) :
    exportDestination config = Except.error (DestError.valueError config) ∧
    getExportGo hasLogger paths log (config :: rest) =
      (paths,
        (if hasLogger then log ++ [DestError.valueError config] else log),
        some (DestError.valueError config)) := by
  have he : exportDestination config =
      Except.error (DestError.valueError config) := by
    simp [exportDestination, h1, h2, h3]
  refine ⟨he, ?_⟩
  rw [getExportGo, he]

theorem get_export_destination_unrecognized_raises_valueError_witness :
    exportDestination cfgDrive = Except.error (DestError.valueError cfgDrive) ∧
    getExportGo true [] [] [cfgDrive] =
      ([], [DestError.valueError cfgDrive],
        some (DestError.valueError cfgDrive)) := by
  have h := get_export_destination_unrecognized_raises_valueError true [] []
    cfgDrive [] ⟨none, some "GeoTIFF"⟩ rfl rfl rfl
  exact ⟨h.1, by simpa using h.2⟩

/-- C6: paths accumulate only through `get_export_destination`.  `poll`
returns `self` untouched, in particular `self.paths` (first conjunct); the
constructor starts `paths` empty (second); `get_export_destination` only
ever appends to the existing `paths`, never removing or overwriting entries
(third). -/
theorem paths_accumulate_only_via_get_export_destination :
    (∀ (τ : Type) (m : TasksManager τ) (max_retries backoff_factor : ℕ)
        (trace : List PollStep),
      (m.poll max_retries backoff_factor trace).2 = m ∧
      ((m.poll max_retries backoff_factor trace).2).paths = m.paths) ∧
    (∀ (τ : Type) (tasks : List τ) (logger : Bool),
      (TasksManager.new tasks logger).paths = []) ∧
    (∀ (m : TasksManager TaskConfig) (arg : Option (List TaskConfig)),
      ∃ appended,
        ((m.get_export_destination arg).1).paths = m.paths ++ appended) := by
  refine ⟨?_, ?_, ?_⟩
  · intro τ m max_retries backoff_factor trace
    exact ⟨rfl, rfl⟩
  · intro τ tasks logger
    rfl
  · intro m arg
    cases arg with
    | none =>
      obtain ⟨a, ha⟩ := getExportGo_paths_exists m.tasks m.hasLogger m.paths []
      refine ⟨a, ?_⟩
      rw [get_export_destination_none]
      exact ha
    | some ts =>
      by_cases hts : ts.isEmpty
      · obtain ⟨a, ha⟩ := getExportGo_paths_exists m.tasks m.hasLogger m.paths []
        refine ⟨a, ?_⟩
        simp only [TasksManager.get_export_destination, hts, if_pos]
        exact ha
      · obtain ⟨a, ha⟩ := getExportGo_paths_exists ts m.hasLogger m.paths []
        refine ⟨a, ?_⟩
        simp only [TasksManager.get_export_destination, hts, if_neg,
          not_false_iff]
        exact ha

/-- C9: `get_export_destination` is not atomic on error.  First conjunct: if
the k-th task raises while every earlier task resolved, the paths already
appended for the earlier tasks stay in `self.paths` and the exception
surfaces.  Second conjunct: a successful call appends one path per task, and
a second successful call on the same tasks appends them again, doubling
`paths` instead of resetting it. -/
theorem get_export_destination_not_atomic :
    (∀ (m : TasksManager TaskConfig) (pre : List TaskConfig)
        (vals : List String) (bad : TaskConfig) (rest : List TaskConfig)
        (e : DestError),
      m.tasks = pre ++ bad :: rest →
      pre.map exportDestination = vals.map Except.ok →
      exportDestination bad = Except.error e →
      ((m.get_export_destination none).1).paths = m.paths ++ vals ∧
      (m.get_export_destination none).2.2 = some e) ∧
    (∀ (m : TasksManager TaskConfig) (vals : List String),
      m.tasks.map exportDestination = vals.map Except.ok →
      ((m.get_export_destination none).1).paths = m.paths ++ vals ∧
      ((((m.get_export_destination none).1).get_export_destination none).1).paths =
        m.paths ++ vals ++ vals) := by
  constructor
  · intro m pre vals bad rest e hm hpre hbad
    have h := getExportGo_stops_at_error pre vals bad rest m.hasLogger m.paths
      [] e hpre hbad
    rw [get_export_destination_none, hm]
    exact ⟨h.1, h.2⟩
  · intro m vals hvals
    have h1 := getExportGo_all_ok m.tasks vals m.hasLogger m.paths [] hvals
    have h2 := getExportGo_all_ok m.tasks vals m.hasLogger (m.paths ++ vals)
      [] hvals
    constructor
    · rw [get_export_destination_none, h1]
    · rw [get_export_destination_none, get_export_destination_none]
      simp only [h1]
      simp only [h2]

theorem get_export_destination_not_atomic_witness :
    ((mgrMixed.get_export_destination none).1).paths =
      ["old", "projects/p/assets/a"] ∧
    (mgrMixed.get_export_destination none).2.2 =
      some (DestError.valueError cfgDrive) ∧
    ((((mgrAsset.get_export_destination none).1).get_export_destination
        none).1).paths =
      ["projects/p/assets/a", "projects/p/assets/a"] := by
  have h := get_export_destination_not_atomic.1 mgrMixed [cfgAsset]
    ["projects/p/assets/a"] cfgDrive [cfgGeo] (DestError.valueError cfgDrive)
    rfl (by rfl) (by rfl)
  have h2 := get_export_destination_not_atomic.2 mgrAsset
    ["projects/p/assets/a"] (by rfl)
  refine ⟨?_, h.2, ?_⟩
  · have := h.1
    simpa [mgrMixed] using this
  · have := h2.2
    simpa [mgrAsset] using this

/-- C7: `export_im_collection` submits exactly one started cloud-storage
export task per element of the aggregated property array, in the array's
order: the returned manager's task list has the same length as `idxs`
(first conjunct), and its i-th entry is the started
`ee.batch.Export.image.toCloudStorage` task built from the i-th item
(second conjunct). -/
theorem export_im_collection_one_task_per_item (idxs : List String)
    (description : String) (export_options : ExportOptions) (logger : Bool) :
    (((export_im_collection idxs description export_options logger).1).tasks).length =
      idxs.length ∧
    (∀ i : ℕ,
      (((export_im_collection idxs description export_options logger).1).tasks).get? i =
        (idxs.get? i).map (fun idx => ExportTask.start
          (Export.image.toCloudStorage idx description
            (itemExportOptions export_options idx)))) := by
  have hmap := exportLoop_tasks description export_options idxs
  constructor
  · simp [export_im_collection, TasksManager.new, hmap]
  · intro i
    simp [export_im_collection, TasksManager.new, hmap, List.get?_map]

/-- C10: `export_im_collection` never mutates the caller's `export_options`
dict: each iteration writes only its own `.copy()`, so the mapping the
caller sees after the call equals the one it passed (first conjunct), and
every submitted task's options are derived from the original mapping — the
`fileNamePrefix` rewrite of one item never leaks into the next (second
conjunct). -/
theorem export_im_collection_preserves_export_options (idxs : List String)
    (description : String) (export_options : ExportOptions) (logger : Bool) :
    (export_im_collection idxs description export_options logger).2 =
      export_options ∧
    (∀ i : ℕ,
      ((((export_im_collection idxs description export_options logger).1).tasks).get?
          i).map (fun t => t.options) =
        (idxs.get? i).map (fun idx => itemExportOptions export_options idx)) := by
  have hmap := exportLoop_tasks description export_options idxs
  have hsnd := exportLoop_snd description export_options idxs
  constructor
  · simpa [export_im_collection] using hsnd
  · intro i
    simp only [export_im_collection, TasksManager.new, hmap, List.get?_map]
    cases h : idxs.get? i with
    | none => simp
    | some idx =>
      simp [ExportTask.start, Export.image.toCloudStorage]
